import Mathlib

/-!
Verification development for the arxiv-prism repository.

The Python sources under src/ are shallowly embedded: strings are
modelled as `List Char`, regular-expression substitutions as explicit
left-to-right scanners with the same leftmost, greedy, non-overlapping
semantics, DOM / XML element trees as inductive types, and the
stateful extraction walks as folds with explicit accumulators.
Recursive tree walks take an explicit fuel argument (structural on
`Nat`) so every definition is executable by the kernel; wrappers pass
`sizeOf` of the tree, which strictly bounds the recursion depth.

Whitespace note: Python `\s` / `str.strip` also accept some rare
control and Unicode space characters; the embedding models the ASCII
whitespace set, which covers every input considered here.
-/

namespace ArxivPrism

/-- ASCII whitespace, as recognised by Python `\s` and `str.strip`. -/
def pyIsSpace (c : Char) : Bool :=
  c = ' ' || c = '\t' || c = '\n' || c = '\r' || c = '\x0b' || c = '\x0c'

/-- Python `str.strip()`: drop leading and trailing whitespace. -/
def pyStrip (l : List Char) : List Char :=
  ((l.dropWhile pyIsSpace).reverse.dropWhile pyIsSpace).reverse

/-- Python `a or b` on strings: the first operand unless it is empty/None. -/
def pyOr (a b : List Char) : List Char :=
  if a = [] then b else a

/-- Python `str.split()` (no argument): split on whitespace runs, dropping
empty pieces.  Fueled scanner; fuel `l.length + 1` always suffices. -/
def pySplitWs : Nat → List Char → List (List Char)
  | 0, _ => []
  | _ + 1, [] => []
  | fuel + 1, l =>
    let l1 := l.dropWhile pyIsSpace
    match l1 with
    | [] => []
    | _ :: _ =>
      let w := l1.takeWhile (fun c => !pyIsSpace c)
      w :: pySplitWs fuel (l1.dropWhile (fun c => !pyIsSpace c))

/-- `sep.flatten pieces`. -/
def joinSep (sep : List Char) : List (List Char) → List Char
  | [] => []
  | [x] => x
  | x :: y :: rest => x ++ sep ++ joinSep sep (y :: rest)

/-- `" ".join(s.split())`: whitespace normalisation used throughout. -/
def normWs (l : List Char) : List Char :=
  joinSep [' '] (pySplitWs (l.length + 1) l)

/-- Python `sub in s` (substring containment). -/
def pyContains : List Char → List Char → Bool
  | s, sub =>
    if sub.isPrefixOf s then true
    else
      match s with
      | [] => false
      | _ :: rest => pyContains rest sub

/-- Python `str.lower()` restricted to ASCII letters. -/
def pyLower (l : List Char) : List Char :=
  l.map Char.toLower

end ArxivPrism

namespace ArxivPrism.TextUtils

open ArxivPrism

/-!
Embedding of src/src/converter/text_utils.py.

`strip_citations` is a pipeline of ten `re.sub` passes followed by
`.strip()`.  Each pass is embedded as a scanner that, at every
position of the original string, attempts the (deterministic
equivalent of the) regex match; on success it emits the replacement
and resumes after the matched span, otherwise it emits one character
and advances.  This is exactly `re.sub` semantics: leftmost match,
greedy quantifiers, non-overlapping, replacements never rescanned.
-/

/-- Generic `re.sub` scanner.  `step` tries to match at the current
position, returning the replacement and the suffix after the match
(every matcher below consumes at least one character). -/
def subScan (step : List Char → Option (List Char × List Char)) :
    Nat → List Char → List Char
  | 0, rest => rest
  | _ + 1, [] => []
  | fuel + 1, c :: cs =>
    match step (c :: cs) with
    | some (repl, rest) => repl ++ subScan step fuel rest
    | none => c :: subScan step fuel cs

/-- The `(?:\s*[,\-]\s*\d+)*` loop of the bracket-citation pattern:
consume as many `sep digits` groups as possible, leaving the input
unchanged when a group fails midway (regex backtracking of a whole
iteration). -/
def citIter : Nat → List Char → List Char
  | 0, l => l
  | fuel + 1, l =>
    let l1 := l.dropWhile pyIsSpace
    match l1 with
    | c :: r =>
      if c = ',' || c = '-' then
        let r1 := r.dropWhile pyIsSpace
        if r1.takeWhile Char.isDigit = [] then l
        else citIter fuel (r1.dropWhile Char.isDigit)
      else l
    | [] => l

/-- `re.sub(r"\[\s*\d+(?:\s*[,\-]\s*\d+)*\s*\]", "", text)` matcher. -/
def mSub1 : List Char → Option (List Char × List Char)
  | '[' :: r =>
    let r1 := r.dropWhile pyIsSpace
    if r1.takeWhile Char.isDigit = [] then none
    else
      let r2 := r1.dropWhile Char.isDigit
      let r3 := citIter r2.length r2
      let r4 := r3.dropWhile pyIsSpace
      match r4 with
      | ']' :: rest => some ([], rest)
      | _ => none
  | _ => none

/-- Characters of the class `[–\-,;]` (en dash, hyphen, comma, semicolon). -/
def isParenJunk (c : Char) : Bool :=
  c = '–' || c = '-' || c = ',' || c = ';'

/-- `re.sub(r"\s*\(\s*[–\-,;]*\s*\)\s*", " ", text)` matcher.  The
whitespace and junk-character alphabets are disjoint, so greedy
matching needs no backtracking. -/
def mSub2 (l : List Char) : Option (List Char × List Char) :=
  let a := l.dropWhile pyIsSpace
  match a with
  | '(' :: r =>
    let r1 := r.dropWhile pyIsSpace
    let r2 := r1.dropWhile isParenJunk
    let r3 := r2.dropWhile pyIsSpace
    match r3 with
    | ')' :: rest => some ([' '], rest.dropWhile pyIsSpace)
    | _ => none
  | _ => none

/-- `re.sub(r"\s+[–\-]\s+(?=[.,;:\s]|$)", " ", text)` matcher.  The
trailing `\s+` backtracks one character when the lookahead needs a
whitespace character to succeed. -/
def mSub3 (l : List Char) : Option (List Char × List Char) :=
  let ws1 := l.takeWhile pyIsSpace
  if ws1 = [] then none
  else
    match l.dropWhile pyIsSpace with
    | d :: r2 =>
      if d = '–' || d = '-' then
        let ws2 := r2.takeWhile pyIsSpace
        let r3 := r2.dropWhile pyIsSpace
        if ws2 = [] then none
        else if r3 = [] || (r3.head?.elim false fun c =>
            c = '.' || c = ',' || c = ';' || c = ':') then
          some ([' '], r3)
        else if 2 ≤ ws2.length then
          some ([' '], ws2.getLastD ' ' :: r3)
        else none
      else none
    | [] => none

/-- `re.sub(r"(?<=\s)[,;]\s+(?=[.,;:\s]|$)", " ", text)`: scanner with
an explicit previous-character-is-whitespace flag for the lookbehind
(matching is always done on the original string). -/
def scan4 : Nat → Bool → List Char → List Char
  | 0, _, rest => rest
  | _ + 1, _, [] => []
  | fuel + 1, prevWs, c :: cs =>
    if (c = ',' || c = ';') && prevWs then
      let ws2 := cs.takeWhile pyIsSpace
      let r3 := cs.dropWhile pyIsSpace
      if ws2 = [] then c :: scan4 fuel (pyIsSpace c) cs
      else if r3 = [] || (r3.head?.elim false fun d =>
          d = '.' || d = ',' || d = ';' || d = ':') then
        ' ' :: scan4 fuel true r3
      else if 2 ≤ ws2.length then
        ' ' :: scan4 fuel true (ws2.getLastD ' ' :: r3)
      else c :: scan4 fuel (pyIsSpace c) cs
    else c :: scan4 fuel (pyIsSpace c) cs

/-- `re.sub(r"([.,;:])\s*[,;]\s*", r"\1 ", text)` matcher. -/
def mSub5 : List Char → Option (List Char × List Char)
  | c :: cs =>
    if c = '.' || c = ',' || c = ';' || c = ':' then
      match cs.dropWhile pyIsSpace with
      | d :: r2 =>
        if d = ',' || d = ';' then
          some ([c, ' '], r2.dropWhile pyIsSpace)
        else none
      | [] => none
    else none
  | [] => none

/-- `re.sub(r"\.{2,}", ".", text)` matcher. -/
def mSub6 (l : List Char) : Option (List Char × List Char) :=
  let dots := l.takeWhile (· = '.')
  if 2 ≤ dots.length then some (['.'], l.dropWhile (· = '.'))
  else none

/-- `re.sub(r"\.\s+\.", ".", text)` matcher. -/
def mSub7 : List Char → Option (List Char × List Char)
  | '.' :: cs =>
    if cs.takeWhile pyIsSpace = [] then none
    else
      match cs.dropWhile pyIsSpace with
      | '.' :: r2 => some (['.'], r2)
      | _ => none
  | _ => none

/-- `re.sub(r"  +", " ", text)` matcher (literal spaces only). -/
def mSub8 (l : List Char) : Option (List Char × List Char) :=
  let sp := l.takeWhile (· = ' ')
  if 2 ≤ sp.length then some ([' '], l.dropWhile (· = ' '))
  else none

/-- `re.sub(r"\n\s*\n", "\n\n", text)` matcher: the greedy inner `\s*`
extends the match to the last newline of the whitespace run. -/
def mSub9 : List Char → Option (List Char × List Char)
  | '\n' :: cs =>
    let ws := cs.takeWhile pyIsSpace
    let r := cs.dropWhile pyIsSpace
    if ws.contains '\n' then
      some (['\n', '\n'], (ws.reverse.takeWhile (· ≠ '\n')).reverse ++ r)
    else none
  | _ => none

/-- `re.sub(r"\s+([.,;:)])", r"\1", text)` matcher. -/
def mSub10 (l : List Char) : Option (List Char × List Char) :=
  if l.takeWhile pyIsSpace = [] then none
  else
    match l.dropWhile pyIsSpace with
    | p :: r2 =>
      if p = '.' || p = ',' || p = ';' || p = ':' || p = ')' then
        some ([p], r2)
      else none
    | [] => none

/-- src/src/converter/text_utils.py `strip_citations`: the ten
substitution passes in source order, then `.strip()`; empty or
all-whitespace input is returned unchanged. -/
def strip_citations (text : List Char) : List Char :=
  if text = [] || pyStrip text = [] then text
  else
    let t1 := subScan mSub1 (text.length + 1) text
    let t2 := subScan mSub2 (t1.length + 1) t1
    let t3 := subScan mSub3 (t2.length + 1) t2
    let t4 := scan4 (t3.length + 1) false t3
    let t5 := subScan mSub5 (t4.length + 1) t4
    let t6 := subScan mSub6 (t5.length + 1) t5
    let t7 := subScan mSub7 (t6.length + 1) t6
    let t8 := subScan mSub8 (t7.length + 1) t7
    let t9 := subScan mSub9 (t8.length + 1) t8
    let t10 := subScan mSub10 (t9.length + 1) t9
    pyStrip t10

/-- src/src/converter/text_utils.py `link_to_markdown`. -/
def link_to_markdown (href link_text : List Char) : List Char :=
  let href2 := pyStrip (pyOr href [])
  let lt := pyStrip (pyOr link_text (pyOr href2 []))
  if href2 = [] || href2.head? = some '#' then lt
  else '[' :: lt ++ ']' :: '(' :: href2 ++ [')']

end ArxivPrism.TextUtils

namespace ArxivPrism

/-!
XML element trees, as produced by `xml.etree.ElementTree`: an element
has a tag, attributes, the text before its first child (`.text`), the
text following it inside its parent (`.tail`), and child elements.
-/

mutual

inductive XE where
  | mk (tag : String) (attrs : List (String × List Char)) (text : List Char)
      (tail : List Char) (kids : XEList)

inductive XEList where
  | nil
  | cons (head : XE) (tail : XEList)

end

def XEList.toList : XEList → List XE
  | .nil => []
  | .cons h t => h :: t.toList

def XEList.ofList : List XE → XEList
  | [] => .nil
  | h :: t => .cons h (XEList.ofList t)

/-- Element constructor taking plain-list children. -/
def xe (tag : String) (attrs : List (String × List Char)) (text : List Char)
    (tail : List Char) (kids : List XE) : XE :=
  .mk tag attrs text tail (XEList.ofList kids)

mutual

/-- Structural size, used as recursion fuel (it strictly bounds the
depth of every subtree). -/
def XE.size : XE → Nat
  | .mk _ _ _ _ kids => 1 + kids.size

def XEList.size : XEList → Nat
  | .nil => 0
  | .cons h t => h.size + t.size

end

def XE.tagOf : XE → String
  | .mk t _ _ _ _ => t

def XE.attrsOf : XE → List (String × List Char)
  | .mk _ a _ _ _ => a

def XE.textRaw : XE → List Char
  | .mk _ _ t _ _ => t

def XE.tailOf : XE → List Char
  | .mk _ _ _ tl _ => tl

def XE.kidsOf : XE → List XE
  | .mk _ _ _ _ k => k.toList

/-- `el.get(key)`: first (only) binding of an attribute. -/
def XE.attrGet? (e : XE) (k : String) : Option (List Char) :=
  (e.attrsOf.find? (fun p => p.1 = k)).map Prod.snd

/-- `el.get(key, default)`. -/
def XE.attrGetD (e : XE) (k : String) (d : List Char) : List Char :=
  (e.attrGet? k).getD d

/-- `"".join(el.itertext())`: the element text followed, for each
child, by its own itertext and its tail. -/
def itertextF : Nat → XE → List Char
  | 0, _ => []
  | fuel + 1, e =>
    e.textRaw ++ ((e.kidsOf.map (fun k => itertextF fuel k ++ k.tailOf)).flatten)

/-- `_text(el)` of both math_utils copies (the `if el.itertext` guard
always holds: a bound method is truthy). -/
def textOf (e : XE) : List Char :=
  itertextF e.size e

/-- `tag.split("}")[-1] if "}" in tag else tag`: strip a namespace
marker (the piece after the last closing brace). -/
def stripTag (t : String) : String :=
  if t.data.contains '\x7d' then
    String.mk ((t.data.reverse.takeWhile (fun c => c ≠ '\x7d')).reverse)
  else t

/-- `el.findall(".//t")` / descendant search with an exact tag, in
document (preorder) order, excluding the element itself. -/
def descTagF : Nat → String → XE → List XE
  | 0, _, _ => []
  | fuel + 1, t, e =>
    (e.kidsOf.map (fun k =>
      (if k.tagOf = t then [k] else []) ++ descTagF fuel t k)).flatten

/-- `el.findall("t")`: direct children with an exact tag. -/
def childTag (t : String) (e : XE) : List XE :=
  e.kidsOf.filter (fun k => k.tagOf = t)

/-- `el.find("t")`: first direct child with an exact tag. -/
def childTag? (t : String) (e : XE) : Option XE :=
  e.kidsOf.find? (fun k => k.tagOf = t)

/-- `el.iter(t)`: self-inclusive preorder traversal filtered by tag. -/
def iterTagF : Nat → String → XE → List XE
  | 0, _, _ => []
  | fuel + 1, t, e =>
    (if e.tagOf = t then [e] else []) ++ (e.kidsOf.map (iterTagF fuel t)).flatten

end ArxivPrism

namespace ArxivPrism.Conv

open ArxivPrism

/-!
Embedding of src/src/converter/math_utils.py (`_mathml_to_latex_el`,
`mathml_element_to_latex`, `mathml_to_latex`).
-/

/-- ASCII operators passed through by the converter copy. -/
def asciiOps : List (List Char) :=
  ["+", "-", "=", "<", ">", "*", "/"].map String.data

/-- The `mo` branch of the converter copy (lines 29-39). -/
def moOut (op : List Char) : List Char :=
  if op ∈ asciiOps then op
  else if op = "−".data then "-".data
  else if op = "×".data then "\\times ".data
  else if op = "÷".data then "\\div ".data
  else op

/-- The `mi` branch: single characters as-is, else macro form. -/
def miOut (s : List Char) : List Char :=
  if s.length = 1 then s else '\\' :: (s ++ " ".data)

/-- `_mathml_to_latex_el` of the converter copy, fueled. -/
def convF : Nat → XE → List Char
  | 0, _ => []
  | fuel + 1, e =>
    let tag := stripTag e.tagOf
    let kids := e.kidsOf
    if tag = "math" then pyStrip ((kids.map (convF fuel)).flatten)
    else if tag = "mrow" then (kids.map (convF fuel)).flatten
    else if tag = "mi" then miOut (pyStrip (textOf e))
    else if tag = "mn" then pyStrip (textOf e)
    else if tag = "mo" then moOut (pyStrip (textOf e))
    else if tag = "msup" then
      "\x7b".data ++ ((kids.get? 0).elim [] (convF fuel)) ++ "\x7d^\x7b".data ++
        ((kids.get? 1).elim [] (convF fuel)) ++ "\x7d".data
    else if tag = "msub" then
      "\x7b".data ++ ((kids.get? 0).elim [] (convF fuel)) ++ "\x7d_\x7b".data ++
        ((kids.get? 1).elim [] (convF fuel)) ++ "\x7d".data
    else if tag = "mfrac" then
      "\\frac\x7b".data ++ ((kids.get? 0).elim [] (convF fuel)) ++ "\x7d\x7b".data ++
        ((kids.get? 1).elim [] (convF fuel)) ++ "\x7d".data
    else if tag = "msqrt" then
      "\\sqrt\x7b".data ++ (kids.map (convF fuel)).flatten ++ "\x7d".data
    else if tag = "mroot" then
      "\\sqrt[".data ++ ((kids.get? 1).elim "2".data (convF fuel)) ++ "]\x7b".data ++
        ((kids.get? 0).elim [] (convF fuel)) ++ "\x7d".data
    else if tag = "mover" then
      let base := (kids.get? 0).elim [] (convF fuel)
      let acc := (kids.get? 1).elim [] (convF fuel)
      if acc = "-".data || acc = "¯".data then
        "\\overline\x7b".data ++ base ++ "\x7d".data
      else "\\overset\x7b".data ++ acc ++ "\x7d\x7b".data ++ base ++ "\x7d".data
    else if tag = "munder" then
      "\\underset\x7b".data ++ ((kids.get? 1).elim [] (convF fuel)) ++ "\x7d\x7b".data ++
        ((kids.get? 0).elim [] (convF fuel)) ++ "\x7d".data
    else if tag = "msubsup" then
      "\x7b".data ++ ((kids.get? 0).elim [] (convF fuel)) ++ "\x7d_\x7b".data ++
        ((kids.get? 1).elim [] (convF fuel)) ++ "\x7d^\x7b".data ++
        ((kids.get? 2).elim [] (convF fuel)) ++ "\x7d".data
    else if tag = "mtable" then
      let rows := descTagF e.size "mtr" e
      if rows.isEmpty then "[table]".data
      else
        "\\begin\x7bmatrix\x7d".data ++
          joinSep " \\\\ ".data (rows.map (fun row =>
            joinSep " & ".data ((childTag "mtd" row).map (convF fuel)))) ++
          "\\end\x7bmatrix\x7d".data
    else if tag = "mtr" || tag = "mtd" then (kids.map (convF fuel)).flatten
    else if tag = "mfenced" then
      e.attrGetD "open" "(".data ++
        joinSep ",".data (kids.map (convF fuel)) ++ e.attrGetD "close" ")".data
    else if tag = "munderover" then
      "\\underset\x7b".data ++ ((kids.get? 1).elim [] (convF fuel)) ++
        "\x7d\x7b\\overset\x7b".data ++ ((kids.get? 2).elim [] (convF fuel)) ++
        "\x7d\x7b".data ++ ((kids.get? 0).elim [] (convF fuel)) ++ "\x7d\x7d".data
    else (kids.map (convF fuel)).flatten

/-- `mathml_element_to_latex` (converter copy). -/
def mathml_element_to_latex (e : XE) : List Char :=
  pyStrip (convF e.size e)

/-- `mathml_to_latex` (converter copy).  `ET.fromstring` is standard
library code outside this repository; it is abstracted as an oracle
that either returns the parsed root element or fails (covering both
`ET.ParseError` and any other exception, all of which the source
catches and maps to the empty string). -/
def mathml_to_latex (fromstring : List Char → Option XE) (s : List Char) :
    List Char :=
  if s = [] || pyStrip s = [] then []
  else
    match fromstring s with
    | none => []
    | some root => pyStrip (convF root.size root)

end ArxivPrism.Conv

namespace ArxivPrism.Prism

open ArxivPrism

/-!
Embedding of src/src/arxiv_prism/math_utils.py, the second copy of the
converter: extended `mo` symbol table, `mtext`, `mspace`, and
namespace-aware direct-child `mtable` row discovery.
-/

/-- ASCII operators passed through by the arxiv_prism copy (line 31). -/
def asciiOps : List (List Char) :=
  ["+", "-", "=", "<", ">", "*", "/", "(", ")", "[", "]", "\x7b", "\x7d",
   "|", ",", ".", ":", ";"].map String.data

/-- The Unicode operators of the extended table (lines 39-72). -/
def extTable : List (List Char × List Char) :=
  [("≤", "\\leq "), ("⩽", "\\leq "), ("≥", "\\geq "), ("⩾", "\\geq "),
   ("≠", "\\neq "), ("±", "\\pm "), ("∓", "\\mp "), ("∈", "\\in "),
   ("∉", "\\notin "), ("⊂", "\\subset "), ("⊃", "\\supset "),
   ("⊆", "\\subseteq "), ("⊇", "\\supseteq "), ("∪", "\\cup "),
   ("∩", "\\cap "), ("∞", "\\infty "), ("∑", "\\sum "), ("∏", "\\prod "),
   ("∫", "\\int ")].map (fun p => (p.1.data, p.2.data))

/-- The `mo` branch of the arxiv_prism copy (lines 29-73): the if-chain
over the symbol table, with verbatim fallthrough. -/
def moOut (op : List Char) : List Char :=
  if op ∈ asciiOps then op
  else if op = "−".data then "-".data
  else if op = "×".data then "\\times ".data
  else if op = "÷".data then "\\div ".data
  else
    match (extTable.find? (fun p => p.1 = op)).map Prod.snd with
    | some out => out
    | none => op

/-- `_mathml_to_latex_el` of the arxiv_prism copy, fueled. -/
def convF : Nat → XE → List Char
  | 0, _ => []
  | fuel + 1, e =>
    let tag := stripTag e.tagOf
    let kids := e.kidsOf
    if tag = "math" then pyStrip ((kids.map (convF fuel)).flatten)
    else if tag = "mrow" then (kids.map (convF fuel)).flatten
    else if tag = "mi" then Conv.miOut (pyStrip (textOf e))
    else if tag = "mn" then pyStrip (textOf e)
    else if tag = "mo" then moOut (pyStrip (textOf e))
    else if tag = "msup" then
      "\x7b".data ++ ((kids.get? 0).elim [] (convF fuel)) ++ "\x7d^\x7b".data ++
        ((kids.get? 1).elim [] (convF fuel)) ++ "\x7d".data
    else if tag = "msub" then
      "\x7b".data ++ ((kids.get? 0).elim [] (convF fuel)) ++ "\x7d_\x7b".data ++
        ((kids.get? 1).elim [] (convF fuel)) ++ "\x7d".data
    else if tag = "mfrac" then
      "\\frac\x7b".data ++ ((kids.get? 0).elim [] (convF fuel)) ++ "\x7d\x7b".data ++
        ((kids.get? 1).elim [] (convF fuel)) ++ "\x7d".data
    else if tag = "msqrt" then
      "\\sqrt\x7b".data ++ (kids.map (convF fuel)).flatten ++ "\x7d".data
    else if tag = "mroot" then
      "\\sqrt[".data ++ ((kids.get? 1).elim "2".data (convF fuel)) ++ "]\x7b".data ++
        ((kids.get? 0).elim [] (convF fuel)) ++ "\x7d".data
    else if tag = "mover" then
      let base := (kids.get? 0).elim [] (convF fuel)
      let acc := (kids.get? 1).elim [] (convF fuel)
      if acc = "-".data || acc = "¯".data then
        "\\overline\x7b".data ++ base ++ "\x7d".data
      else "\\overset\x7b".data ++ acc ++ "\x7d\x7b".data ++ base ++ "\x7d".data
    else if tag = "munder" then
      "\\underset\x7b".data ++ ((kids.get? 1).elim [] (convF fuel)) ++ "\x7d\x7b".data ++
        ((kids.get? 0).elim [] (convF fuel)) ++ "\x7d".data
    else if tag = "msubsup" then
      "\x7b".data ++ ((kids.get? 0).elim [] (convF fuel)) ++ "\x7d_\x7b".data ++
        ((kids.get? 1).elim [] (convF fuel)) ++ "\x7d^\x7b".data ++
        ((kids.get? 2).elim [] (convF fuel)) ++ "\x7d".data
    else if tag = "mtable" then
      let rows := kids.filter (fun k => stripTag k.tagOf = "mtr")
      if rows.isEmpty then "[table]".data
      else
        let rowParts := rows.filterMap (fun row =>
          let cells := row.kidsOf.filter (fun k => stripTag k.tagOf = "mtd")
          if cells.isEmpty then none
          else some (joinSep " & ".data (cells.map (convF fuel))))
        if rowParts.isEmpty then "[table]".data
        else
          "\\begin\x7bmatrix\x7d".data ++ joinSep " \\\\ ".data rowParts ++
            "\\end\x7bmatrix\x7d".data
    else if tag = "mtr" || tag = "mtd" then (kids.map (convF fuel)).flatten
    else if tag = "mfenced" then
      e.attrGetD "open" "(".data ++
        joinSep ",".data (kids.map (convF fuel)) ++ e.attrGetD "close" ")".data
    else if tag = "munderover" then
      "\\underset\x7b".data ++ ((kids.get? 1).elim [] (convF fuel)) ++
        "\x7d\x7b\\overset\x7b".data ++ ((kids.get? 2).elim [] (convF fuel)) ++
        "\x7d\x7b".data ++ ((kids.get? 0).elim [] (convF fuel)) ++ "\x7d\x7d".data
    else if tag = "mtext" then
      let t := pyStrip (textOf e)
      if t = [] then [] else "\\text\x7b".data ++ t ++ "\x7d".data
    else if tag = "mspace" then
      let width := e.attrGetD "width" []
      if pyContains width "thin".data || width = "0.167em".data || width = "3pt".data then
        "\\,".data
      else if pyContains width "medium".data || width = "0.222em".data || width = "4pt".data then
        "\\:".data
      else if pyContains width "thick".data || width = "0.278em".data || width = "5pt".data then
        "\\;".data
      else if pyContains width "1em".data then "\\quad ".data
      else if pyContains width "2em".data then "\\qquad ".data
      else " ".data
    else (kids.map (convF fuel)).flatten

/-- `mathml_element_to_latex` (arxiv_prism copy). -/
def mathml_element_to_latex (e : XE) : List Char :=
  pyStrip (convF e.size e)

/-- `mathml_to_latex` (arxiv_prism copy), with the same abstract
`ET.fromstring` oracle as the converter copy. -/
def mathml_to_latex (fromstring : List Char → Option XE) (s : List Char) :
    List Char :=
  if s = [] || pyStrip s = [] then []
  else
    match fromstring s with
    | none => []
    | some root => pyStrip (convF root.size root)

end ArxivPrism.Prism

namespace ArxivPrism.Models

/-!
Embedding of src/src/converter/models.py.  `Section` is recursive, so
it is given as a mutual inductive with its child list.  The pydantic
bound `level: Field(ge=1, le=3)` is a construction-time validation;
it is modelled by the separate predicate `levelsOK` (an Article value
actually escapes the parser only when every constructed level passed
that check).
-/

mutual

inductive Section where
  | mk (title : List Char) (level : Nat) (content : List Char)
      (children : SectionList)

inductive SectionList where
  | nil
  | cons (head : Section) (tail : SectionList)

end

def SectionList.toList : SectionList → List Section
  | .nil => []
  | .cons h t => h :: t.toList

def SectionList.ofList : List Section → SectionList
  | [] => .nil
  | h :: t => .cons h (SectionList.ofList t)

/-- Section constructor taking plain-list children. -/
def mkSection (title : List Char) (level : Nat) (content : List Char)
    (children : List Section) : Section :=
  .mk title level content (SectionList.ofList children)

def Section.titleOf : Section → List Char
  | .mk t _ _ _ => t

def Section.levelOf : Section → Nat
  | .mk _ l _ _ => l

def Section.contentOf : Section → List Char
  | .mk _ _ c _ => c

def Section.childrenOf : Section → List Section
  | .mk _ _ _ k => k.toList

mutual

/-- The depth invariant of spec section 3: no level-3 Section has a
non-empty child list (checked on the whole subtree). -/
def Section.depthOK : Section → Bool
  | .mk _ lv _ kids =>
    (decide (lv ≠ 3) || (match kids with | .nil => true | .cons _ _ => false))
      && kids.depthOKL

def SectionList.depthOKL : SectionList → Bool
  | .nil => true
  | .cons h t => h.depthOK && t.depthOKL

end

/-- The depth invariant over a list of Sections. -/
def sectionsDepthOK (l : List Section) : Bool :=
  l.all Section.depthOK

mutual

/-- Every level in the subtree lies in 1..3, i.e. every pydantic
`Section` construction performed during the parse succeeded. -/
def Section.levelsOK : Section → Bool
  | .mk _ lv _ kids => (decide (1 ≤ lv) && decide (lv ≤ 3)) && kids.levelsOKL

def SectionList.levelsOKL : SectionList → Bool
  | .nil => true
  | .cons h t => h.levelsOK && t.levelsOKL

end

/-- `levelsOK` over a list of Sections. -/
def sectionsLevelsOK (l : List Section) : Bool :=
  l.all Section.levelsOK

structure Figure where
  id : List Char
  label : List Char
  caption : List Char
deriving DecidableEq

structure Supplementary where
  label : List Char
  description : List Char
deriving DecidableEq

end ArxivPrism.Models

namespace ArxivPrism.Xml

open ArxivPrism

/-!
Embedding of src/src/converter/parsers/xml_parser.py (the functions
the claims cite: `_parse_sec`, `XMLParser._get_sections`,
`XMLParser._get_figures`, `XMLParser._get_supplementary`, and their
helpers).
-/

/-- `_norm`: whitespace normalisation ( `" ".join(s.split())` ). -/
def norm (s : List Char) : List Char :=
  if s = [] then [] else normWs s

/-- `itertext()` as the list of its non-empty yielded pieces. -/
def itertextPiecesF : Nat → XE → List (List Char)
  | 0, _ => []
  | fuel + 1, e =>
    (if e.textRaw = [] then [] else [e.textRaw]) ++
      (e.kidsOf.map (fun k =>
        itertextPiecesF fuel k ++
          (if k.tailOf = [] then [] else [k.tailOf]))).flatten

/-- xml_parser `_text`: `" ".join(el.itertext())`. -/
def xmlText (e : XE) : List Char :=
  joinSep [' '] (itertextPiecesF e.size e)

/-- Decimal digits to `Nat` (`int(...)` on an all-digit string). -/
def digitsToNat (l : List Char) : Nat :=
  l.foldl (fun n c => n * 10 + (c.toNat - '0'.toNat)) 0

/-- A decimal digit character (kernel-reducible form). -/
def digitChar (d : Nat) : Char :=
  ['0', '1', '2', '3', '4', '5', '6', '7', '8', '9'].getD d '0'

/-- `f"F{n}"`-style decimal rendering of a counter. -/
def natAux : Nat → Nat → List Char
  | 0, _ => []
  | fuel + 1, n =>
    if n < 10 then [digitChar n]
    else natAux fuel (n / 10) ++ [digitChar (n % 10)]

/-- Decimal rendering of a counter. -/
def natToChars (n : Nat) : List Char :=
  natAux (n + 1) n

/-- The httpns-qualified xlink href key. -/
def xlinkHref : String := "{http://www.w3.org/1999/xlink}href"

/-- `_extract_paragraph_text`'s inner `_process_node`: direct text,
then per child either the bibliographic-xref skip (tail kept), the
ext-link Markdown rewrite (tail kept), or recursion (tail kept). -/
def processNodeF : Nat → XE → List Char
  | 0, _ => []
  | fuel + 1, node =>
    node.textRaw ++
      (node.kidsOf.map (fun child =>
        if child.tagOf = "xref" && child.attrGet? "ref-type" = some "bibr".data then
          child.tailOf
        else if child.tagOf = "ext-link" then
          let href := pyOr (child.attrGetD xlinkHref [])
            (pyOr (child.attrGetD "xlink:href" []) [])
          let text := norm (xmlText child)
          (if href ≠ [] && ¬ (href.head? = some '#') then
            "[".data ++ pyOr text href ++ "](".data ++ href ++ ")".data
          else text) ++ child.tailOf
        else processNodeF fuel child ++ child.tailOf)).flatten

/-- `_extract_paragraph_text`. -/
def extract_paragraph_text (p : XE) : List Char :=
  TextUtils.strip_citations (norm (processNodeF p.size p))

/-- `_formula_to_latex`: first descendant MathML `math` element
(namespaced, then plain), converted by the converter copy. -/
def formula_to_latex (formula : XE) (display : Bool) : List Char :=
  let mathEl :=
    match (descTagF formula.size "{http://www.w3.org/1998/Math/MathML}math" formula).head? with
    | some m => some m
    | none => (descTagF formula.size "math" formula).head?
  match mathEl with
  | none => []
  | some m =>
    let latex := Conv.mathml_element_to_latex m
    if latex = [] then []
    else if display then "$$".data ++ latex ++ "$$".data
    else "$".data ++ latex ++ "$".data

/-- `int(disp) if disp and disp.isdigit() else dflt` for a
`disp-level` attribute. -/
def dispLevel (e : XE) (dflt : Nat) : Nat :=
  match e.attrGet? "disp-level" with
  | some d => if d ≠ [] && d.all Char.isDigit then digitsToNat d else dflt
  | none => dflt

/-- `_parse_sec`: recursively parse a `sec` element at a level; the
child loop collects paragraph/formula content parts and nested
sections in document order. -/
def parse_secF : Nat → XE → Nat → Models.Section
  | 0, _, level => Models.mkSection [] level [] []
  | fuel + 1, secEl, level =>
    let title :=
      match childTag? "title" secEl with
      | some t => norm (xmlText t)
      | none => []
    let pieces := secEl.kidsOf.map (fun child =>
      if child.tagOf = "title" then (none, none)
      else if child.tagOf = "sec" then
        (none, some (parse_secF fuel child (dispLevel child (level + 1))))
      else if child.tagOf = "p" then
        (some (extract_paragraph_text child), none)
      else if child.tagOf = "fig" then (none, none)
      else if child.tagOf = "table-wrap" then (none, none)
      else if child.tagOf = "disp-formula" then
        (some (formula_to_latex child true), none)
      else if child.tagOf = "inline-formula" then
        (some (formula_to_latex child false), none)
      else ((none : Option (List Char)), (none : Option Models.Section)))
    let contentParts := pieces.filterMap Prod.fst
    let children := pieces.filterMap Prod.snd
    Models.mkSection title level
      (joinSep "\n\n".data (contentParts.filter (fun p => pyStrip p ≠ [])))
      children

/-- `XMLParser._get_sections`: top-level `sec` children of `body`
whose display level is absent or 1, each parsed at level 1. -/
def get_sections (body : XE) : List Models.Section :=
  (childTag "sec" body).filterMap (fun sec =>
    if dispLevel sec 1 = 1 then some (parse_secF sec.size sec 1) else none)

/-- Caption text of a `fig`/`table-wrap` caption element: paragraph
extractions, with a non-blank caption title prefixed. -/
def captionParts (cap : XE) : List (List Char) :=
  let ps := (childTag "p" cap).map extract_paragraph_text
  match childTag? "title" cap with
  | some t => if xmlText t ≠ [] then norm (xmlText t) :: ps else ps
  | none => ps

/-- The figure-accumulating loop of `XMLParser._get_figures`. -/
def figsLoop : List XE → List Models.Figure → List Models.Figure
  | [], acc => acc
  | fig :: rest, acc =>
    let fid := pyOr (fig.attrGetD "id" []) ("F".data ++ natToChars (acc.length + 1))
    let label :=
      match childTag? "label" fig with
      | some l => norm (xmlText l)
      | none => []
    let caption :=
      match childTag? "caption" fig with
      | some cap => joinSep "\n\n".data (captionParts cap)
      | none => joinSep "\n\n".data []
    figsLoop rest (acc ++ [⟨fid, label, caption⟩])

/-- `XMLParser._get_figures`: every `fig` element of the whole
article (any depth), in document order. -/
def get_figures (article : XE) : List Models.Figure :=
  figsLoop (iterTagF article.size "fig" article) []

/-- `XMLParser._get_supplementary` (lines 237-239): supplementary
materials are not loaded. -/
def get_supplementary (_back : XE) : List Models.Supplementary :=
  []

/-- The `parse` assembly of the supplementary field:
`self._get_supplementary(back) if back is not None else []`. -/
def parse_supplementary (article : XE) : List Models.Supplementary :=
  match childTag? "back" article with
  | some back => get_supplementary back
  | none => []

end ArxivPrism.Xml

namespace ArxivPrism.Html

open ArxivPrism

/-!
Embedding of src/src/converter/parsers/html_parser.py (the functions
the claims cite: `HTMLParser._get_sections`, `_get_figures`,
`_get_supplementary`, with `_element_text` and `_clean_content_text`).

The BeautifulSoup DOM is modelled by `HN`: element nodes with name,
attributes and children, and text nodes.  `find_all`/`find`/CSS
selection are preorder descendant searches; `find_parent` membership
is modelled by threading the list of ancestor element names through
the traversal.  Two soup facts used: a Tag object is always truthy
(so `if tag:` is a None test), and the reparse
`BeautifulSoup(str(container), "lxml")` of an already-parsed fragment
yields the same content (modelled as the identity).
-/

mutual

inductive HN where
  | el (name : String) (attrs : List (String × List Char)) (kids : HNList)
  | txt (s : List Char)

inductive HNList where
  | nil
  | cons (head : HN) (tail : HNList)

end

def HNList.toList : HNList → List HN
  | .nil => []
  | .cons h t => h :: t.toList

def HNList.ofList : List HN → HNList
  | [] => .nil
  | h :: t => .cons h (HNList.ofList t)

/-- Element constructor taking plain-list children. -/
def hel (name : String) (attrs : List (String × List Char)) (kids : List HN) : HN :=
  .el name attrs (HNList.ofList kids)

mutual

/-- Structural size, used as recursion fuel. -/
def HN.size : HN → Nat
  | .el _ _ kids => 1 + kids.size
  | .txt _ => 1

def HNList.size : HNList → Nat
  | .nil => 0
  | .cons h t => h.size + t.size

end

def HN.kidsOf : HN → List HN
  | .el _ _ k => k.toList
  | .txt _ => []

def HN.attrsOf : HN → List (String × List Char)
  | .el _ a _ => a
  | .txt _ => []

def HN.attr? (n : HN) (k : String) : Option (List Char) :=
  (n.attrsOf.find? (fun p => p.1 = k)).map Prod.snd

def HN.attrD (n : HN) (k : String) (d : List Char) : List Char :=
  (n.attr? k).getD d

/-- The multi-valued `class` attribute, split on whitespace. -/
def classes (n : HN) : List (List Char) :=
  pySplitWs ((n.attrD "class" []).length + 1) (n.attrD "class" [])

def isEl (n : HN) (nm : String) : Bool :=
  match n with
  | .el name _ _ => name = nm
  | .txt _ => false

/-- All strict descendants in document (preorder) order, each paired
with the names of its ancestor elements (outermost first). -/
def descPathF : Nat → List String → HN → List (List String × HN)
  | 0, _, _ => []
  | fuel + 1, path, n =>
    match n with
    | .txt _ => []
    | .el name _ kids =>
      (kids.toList.map (fun k =>
        (path ++ [name], k) :: descPathF fuel (path ++ [name]) k)).flatten

/-- Strict descendants without ancestor paths. -/
def descOf (n : HN) : List HN :=
  (descPathF n.size [] n).map Prod.snd

/-- `find(...)`: first matching descendant. -/
def findDesc (p : HN → Bool) (n : HN) : Option HN :=
  (descOf n).find? p

/-- Text-node contents of a subtree, in document order. -/
def textsF : Nat → HN → List (List Char)
  | 0, _ => []
  | fuel + 1, n =>
    match n with
    | .txt s => [s]
    | .el _ _ kids => (kids.toList.map (textsF fuel)).flatten

/-- `get_text(separator=sep, strip=True)`: stripped non-empty string
descendants joined by the separator. -/
def getTextStrip (sep : List Char) (n : HN) : List Char :=
  joinSep sep (((textsF n.size n).map pyStrip).filter (fun s => s ≠ []))

/-- `_element_text`: `" ".join(el.get_text(separator=" ", strip=True).split())`. -/
def element_text (n : HN) : List Char :=
  normWs (getTextStrip [' '] n)

/-- The citation-href test `re.compile(r"#ref-|#cite", re.I)` applied
by BeautifulSoup as a search over the attribute value. -/
def isRefHref (h : List Char) : Bool :=
  pyContains (pyLower h) "#ref-".data || pyContains (pyLower h) "#cite".data

/-- Does the subtree contain a strict-descendant link whose `href`
matches the citation pattern (`sup.find("a", href=...)`)? -/
def hasRefLink (n : HN) : Bool :=
  ((descOf n).find? (fun d =>
    isEl d "a" && (d.attr? "href").elim false isRefHref)).isSome

mutual

/-- First cleanup pass of `_clean_content_text`: decompose every
`sup` that contains a citation link. -/
def removeSups : Nat → HN → HN
  | 0, n => n
  | fuel + 1, n =>
    match n with
    | .txt s => .txt s
    | .el name attrs kids => .el name attrs (removeSupsL fuel kids)

def removeSupsL : Nat → HNList → HNList
  | 0, l => l
  | _ + 1, .nil => .nil
  | fuel + 1, .cons k rest =>
    if isEl k "sup" && hasRefLink k then removeSupsL fuel rest
    else .cons (removeSups fuel k) (removeSupsL fuel rest)

end

mutual

/-- Second cleanup pass: decompose standalone citation links. -/
def removeRefLinks : Nat → HN → HN
  | 0, n => n
  | fuel + 1, n =>
    match n with
    | .txt s => .txt s
    | .el name attrs kids => .el name attrs (removeRefLinksL fuel kids)

def removeRefLinksL : Nat → HNList → HNList
  | 0, l => l
  | _ + 1, .nil => .nil
  | fuel + 1, .cons k rest =>
    if isEl k "a" && (k.attr? "href").elim false isRefHref then
      removeRefLinksL fuel rest
    else .cons (removeRefLinks fuel k) (removeRefLinksL fuel rest)

end

mutual

/-- Third cleanup pass: replace remaining `a[href]` elements by their
Markdown or anchor-text form. -/
def rewriteLinks : Nat → HN → HN
  | 0, n => n
  | fuel + 1, n =>
    match n with
    | .txt s => .txt s
    | .el name attrs kids =>
      match HN.attr? (.el name attrs kids) "href" with
      | some href =>
        if name = "a" then
          if href.head? = some '#' then .txt (getTextStrip [] (.el name attrs kids))
          else
            .txt ("[".data ++
              pyOr (getTextStrip [] (.el name attrs kids)) href ++
              "](".data ++ href ++ ")".data)
        else .el name attrs (rewriteLinksL fuel kids)
      | none => .el name attrs (rewriteLinksL fuel kids)

def rewriteLinksL : Nat → HNList → HNList
  | 0, l => l
  | _ + 1, .nil => .nil
  | fuel + 1, .cons k rest => .cons (rewriteLinks fuel k) (rewriteLinksL fuel rest)

end

/-- `_clean_content_text`: the three tree passes, whitespace-joined
text, space collapsing, citation stripping, final strip. -/
def clean_content_text (container : HN) : List Char :=
  let c1 := removeSups container.size container
  let c2 := removeRefLinks c1.size c1
  let c3 := rewriteLinks c2.size c2
  let text := getTextStrip [' '] c3
  let text := TextUtils.subScan TextUtils.mSub8 (text.length + 1) text
  let text := TextUtils.strip_citations text
  pyStrip text

/-- `SKIP_SECTION_TITLES` (line 22). -/
def SKIP_SECTION_TITLES : List (List Char) :=
  ["References".data, "References ".data]

/-- One flat block of the section walk: level, title, joined content. -/
def Block := Nat × List Char × List Char

/-- The flush of the running accumulator: emit a block when the title
or the paragraph list is non-empty. -/
def flushIf (lv : Nat) (tt : List Char) (parts : List (List Char)) : List Block :=
  if tt ≠ [] ∨ parts ≠ [] then
    [(lv, tt, joinSep "\n\n".data (parts.filter (fun p => pyStrip p ≠ [])))]
  else []

/-- The child walk over the content block: heading elements flush and
reset the (level, title, parts) state; `p`/`div` children outside
figures/tables append cleaned text. -/
def walkBlocks (anc : List String) :
    List HN → Nat → List Char → List (List Char) → List Block
  | [], lv, tt, parts => flushIf lv tt parts
  | node :: rest, lv, tt, parts =>
    match node with
    | .txt _ => walkBlocks anc rest lv tt parts
    | .el name _ _ =>
      if name = "h2" && "c-article__sub-heading".data ∈ classes node then
        flushIf lv tt parts ++ walkBlocks anc rest 2 (element_text node) []
      else if name = "h3" then
        flushIf lv tt parts ++ walkBlocks anc rest 2 (element_text node) []
      else if name = "h4" then
        flushIf lv tt parts ++ walkBlocks anc rest 3 (element_text node) []
      else if name = "p" || name = "div" then
        if anc.contains "figure" || anc.contains "table" then
          walkBlocks anc rest lv tt parts
        else
          let text := clean_content_text node
          if text ≠ [] then walkBlocks anc rest lv tt (parts ++ [text])
          else walkBlocks anc rest lv tt parts
      else walkBlocks anc rest lv tt parts

/-- The level-3 absorption of the tree rebuild (`while blocks[j][0] == 3`). -/
def buildChildrenF : Nat → List Block → List Models.Section
  | 0, _ => []
  | _ + 1, [] => []
  | fuel + 1, (lv, tt, ct) :: rest =>
    if lv = 2 then
      Models.mkSection tt 2 ct
        ((rest.takeWhile (fun b => b.1 = 3)).map (fun b =>
          Models.mkSection b.2.1 3 b.2.2 [])) ::
        buildChildrenF fuel (rest.dropWhile (fun b => b.1 = 3))
    else buildChildrenF fuel rest

/-- Tree rebuild entry point (fuel: one step per block). -/
def buildChildren (blocks : List Block) : List Models.Section :=
  buildChildrenF (blocks.length + 1) blocks

/-- Per-section construction (the loop body of `_get_sections`):
title from the section heading, block walk of the content div,
reassembly into a level-1 Section with level-2/3 children. -/
def buildSection (path : List String) (secEl : HN) : Models.Section :=
  let titleAttr := pyStrip (secEl.attrD "data-title" [])
  let h2 := findDesc (fun n =>
    isEl n "h2" && "c-article-section__title".data ∈ classes n) secEl
  let title := match h2 with | some h => element_text h | none => titleAttr
  let contentDiv := (descPathF secEl.size (path ++ ["section"]) secEl).find?
    (fun p => "c-article-section__content".data ∈ classes p.2)
  match contentDiv with
  | none => Models.mkSection title 1 [] []
  | some (cpath, cdiv) =>
    let cname := match cdiv with | .el nm _ _ => nm | .txt _ => ""
    let blocks := walkBlocks (cpath ++ [cname]) cdiv.kidsOf 1 title []
    match blocks with
    | [] => Models.mkSection title 1 [] []
    | (_, _, firstContent) :: rest =>
      Models.mkSection title 1 firstContent (buildChildren rest)

/-- Is this node a `section` element carrying a `data-title` attribute? -/
def isDataTitleSection (n : HN) : Bool :=
  isEl n "section" && (n.attr? "data-title").isSome

/-- The skip test of the section loop. -/
def skippedSection (n : HN) : Bool :=
  pyStrip (n.attrD "data-title" []) ∈ SKIP_SECTION_TITLES

/-- The section loop of `HTMLParser._get_sections` (lines 199-289):
iterate every data-title section, skipping the skip-set. -/
def secLoop : List (List String × HN) → List Models.Section
  | [] => []
  | (path, secEl) :: rest =>
    if skippedSection secEl then secLoop rest
    else buildSection path secEl :: secLoop rest

/-- `HTMLParser._get_sections`. -/
def get_sections (root : HN) : List Models.Section :=
  secLoop ((descPathF root.size [] root).filter (fun p => isDataTitleSection p.2))

/-- Class-regex matchers of `_get_figures`. -/
def hasCaptionClass (n : HN) : Bool :=
  (classes n).any (fun c => pyContains c "caption".data)

def hasLabelClass (n : HN) : Bool :=
  (classes n).any (fun c =>
    pyContains c "label".data || pyContains c "figure-number".data)

/-- The figure loop of `HTMLParser._get_figures` (lines 291-305): a
figure is recorded only when it has a caption or a label; `F<n>` ids
are synthesised from the running count. -/
def figLoop : List HN → List Models.Figure → List Models.Figure
  | [], acc => acc
  | fig :: rest, acc =>
    let capEl :=
      match findDesc (fun n => isEl n "figcaption") fig with
      | some c => some c
      | none => findDesc hasCaptionClass fig
    let caption := match capEl with | some c => element_text c | none => []
    let label :=
      match findDesc hasLabelClass fig with
      | some l => element_text l
      | none => []
    let fid0 := pyOr (fig.attrD "id" []) (pyOr (fig.attrD "data-id" []) [])
    let fid :=
      if fid0 = [] && (label ≠ [] || caption ≠ []) then
        "F".data ++ Xml.natToChars (acc.length + 1)
      else fid0
    if label ≠ [] || caption ≠ [] then
      figLoop rest
        (acc ++ [⟨pyOr fid ("F".data ++ Xml.natToChars (acc.length + 1)),
                 label, caption⟩])
    else figLoop rest acc

/-- `HTMLParser._get_figures`. -/
def get_figures (root : HN) : List Models.Figure :=
  figLoop ((descOf root).filter (fun n => isEl n "figure")) []

/-- Is this the `Supplementary information` section? -/
def isSuppSection (n : HN) : Bool :=
  isEl n "section" && n.attr? "data-title" = some "Supplementary information".data

/-- The link filter of `_get_supplementary`. -/
def suppOfLink (a : HN) : Option Models.Supplementary :=
  let text := element_text a
  let href := a.attrD "href" []
  if text ≠ [] && (pyContains (pyLower href) "supplementary".data ||
      pyContains (pyLower text) "supp".data) then
    some ⟨text.take 80, href⟩
  else none

/-- `HTMLParser._get_supplementary` (lines 338-351). -/
def get_supplementary (root : HN) : List Models.Supplementary :=
  match (descOf root).find? isSuppSection with
  | none => []
  | some sec =>
    match (descOf sec).find?
        (fun n => "c-article-section__content".data ∈ classes n) with
    | none => []
    | some content =>
      ((descOf content).filter (fun n =>
        isEl n "a" && (n.attr? "href").isSome)).filterMap suppOfLink

end ArxivPrism.Html

namespace ArxivPrism.Conv

/-- The element tags the converter copy dispatches on; anything else
falls through to the transparent default branch. -/
def knownTags : List String :=
  ["math", "mrow", "mi", "mn", "mo", "msup", "msub", "mfrac", "msqrt",
   "mroot", "mover", "munder", "msubsup", "mtable", "mtr", "mtd",
   "mfenced", "munderover"]

end ArxivPrism.Conv

namespace ArxivPrism.Equiv

open ArxivPrism

/-!
The common fragment of the two converter copies: trees with no
`mtext`, `mspace` or `mtable` element and no `mo` operator from the
extended symbol table.  On this fragment the two `_mathml_to_latex_el`
copies are proved to coincide.
-/

/-- `mo` operator texts handled only by the arxiv_prism copy. -/
def divergingMo : List (List Char) :=
  Prism.extTable.map Prod.fst

/-- Membership in the common fragment (checked with the same fuel
discipline as the converters). -/
def agreeF : Nat → XE → Bool
  | 0, _ => true
  | fuel + 1, e =>
    let tag := stripTag e.tagOf
    !(tag = "mtext" || tag = "mspace" || tag = "mtable") &&
    (!(tag = "mo") || !(decide (pyStrip (textOf e) ∈ divergingMo))) &&
    e.kidsOf.all (agreeF fuel)

end ArxivPrism.Equiv

namespace ArxivPrism.Docs

open ArxivPrism ArxivPrism.Html

/-!
Concrete documents used as failing inputs and counterexamples (each
is the parse of the small markup given in its doc comment).
-/

/-- `<body><sec><sec disp-level="3"><sec disp-level="3"/></sec></sec></body>` -/
def deepSecBody : XE :=
  xe "body" [] [] []
    [xe "sec" [] [] []
      [xe "sec" [("disp-level", "3".data)] [] []
        [xe "sec" [("disp-level", "3".data)] [] [] []]]]

/-- `<article><fig/></article>`: a figure with neither label nor caption. -/
def bareFigArticle : XE :=
  xe "article" [] [] [] [xe "fig" [] [] [] []]

/-- An article document whose only figure carries a label. -/
def labelFigArticle : XE :=
  xe "article" [] [] []
    [xe "fig" [("id", "F9".data)] [] []
      [xe "label" [] "Fig 9".data [] []]]

/-- A document with three data-title sections: Results,
Acknowledgements, Methods (in that order). -/
def ackDoc : HN :=
  hel "[document]" []
    [hel "html" []
      [hel "body" []
        [hel "section" [("data-title", "Results".data)] [],
         hel "section" [("data-title", "Acknowledgements".data)] [],
         hel "section" [("data-title", "Methods".data)] []]]]

/-- A document whose Supplementary information section contains a
qualifying link. -/
def suppDoc : HN :=
  hel "[document]" []
    [hel "html" []
      [hel "body" []
        [hel "section" [("data-title", "Supplementary information".data)]
          [hel "div" [("class", "c-article-section__content".data)]
            [hel "a" [("href", "https://s.com/supplementary1.pdf".data)]
              [HN.txt "Data S1".data]]]]]]

/-- A document with content but no Supplementary information section. -/
def plainDoc : HN :=
  hel "[document]" []
    [hel "html" []
      [hel "body" []
        [hel "section" [("data-title", "Results".data)]
          [hel "div" [("class", "c-article-section__content".data)]
            [hel "p" [] [HN.txt "hi".data]]]]]]

/-- A document whose only figure has a figcaption. -/
def capFigDoc : HN :=
  hel "[document]" []
    [hel "html" []
      [hel "body" []
        [hel "figure" []
          [hel "figcaption" [] [HN.txt "Cap one".data]]]]]

end ArxivPrism.Docs

namespace ArxivPrism

/-! ### Helper lemmas -/

theorem head?_dropWhile_not {α : Type} (p : α → Bool) (l : List α) :
    ∀ c, (l.dropWhile p).head? = some c → p c = false := by
  induction l with
  | nil => simp
  | cons a t ih =>
    intro c h
    rw [List.dropWhile_cons] at h
    by_cases hp : p a = true
    · rw [if_pos hp] at h
      exact ih c h
    · rw [if_neg hp] at h
      simp only [List.head?_cons, Option.some.injEq] at h
      subst h
      exact Bool.eq_false_iff.mpr hp

theorem dropWhile_of_head {α : Type} (p : α → Bool) (l : List α)
    (h : ∀ c, l.head? = some c → p c = false) : l.dropWhile p = l := by
  cases l with
  | nil => rfl
  | cons a t =>
    rw [List.dropWhile_cons, if_neg]
    simp [h a rfl]

theorem getLast?_dropWhile {α : Type} (p : α → Bool) (l : List α) :
    ∀ c, (l.dropWhile p).getLast? = some c → l.getLast? = some c := by
  intro c h
  obtain ⟨s, hs⟩ := List.dropWhile_suffix (l := l) p
  rw [← hs, List.getLast?_append, h]
  rfl

theorem pyStrip_head (l : List Char) :
    ∀ c, (pyStrip l).head? = some c → pyIsSpace c = false := by
  intro c h
  unfold pyStrip at h
  rw [List.head?_reverse] at h
  have h2 := getLast?_dropWhile pyIsSpace _ c h
  rw [List.getLast?_reverse] at h2
  exact head?_dropWhile_not pyIsSpace l c h2

theorem pyStrip_getLast (l : List Char) :
    ∀ c, (pyStrip l).getLast? = some c → pyIsSpace c = false := by
  intro c h
  unfold pyStrip at h
  rw [List.getLast?_reverse] at h
  exact head?_dropWhile_not pyIsSpace _ c h

/-- Stripping is idempotent (needed to phrase stripped-value results). -/
theorem pyStrip_idem (l : List Char) : pyStrip (pyStrip l) = pyStrip l := by
  have h1 : (pyStrip l).dropWhile pyIsSpace = pyStrip l :=
    dropWhile_of_head pyIsSpace _ (fun c hc => pyStrip_head l c hc)
  show (((pyStrip l).dropWhile pyIsSpace).reverse.dropWhile pyIsSpace).reverse = pyStrip l
  rw [h1]
  have h2 : ((pyStrip l).reverse).dropWhile pyIsSpace = (pyStrip l).reverse :=
    dropWhile_of_head pyIsSpace _ (fun c hc => by
      rw [List.head?_reverse] at hc
      exact pyStrip_getLast l c hc)
  rw [h2, List.reverse_reverse]

theorem pyOr_nil (a : List Char) : pyOr a [] = a := by
  unfold pyOr
  split <;> simp_all

/-- The section loop is a filter of the skip-set followed by the
per-section build. -/
theorem secLoop_filter (l : List (List String × Html.HN)) :
    Html.secLoop l =
      (l.filter (fun p => !Html.skippedSection p.2)).map
        (fun p => Html.buildSection p.1 p.2) := by
  induction l with
  | nil => rfl
  | cons hd tl ih =>
    obtain ⟨path, el⟩ := hd
    by_cases h : Html.skippedSection el = true
    · simp [Html.secLoop, h, ih]
    · simp [Html.secLoop, h, ih]

/-- Every figure the HTML figure loop adds has a label or a caption. -/
theorem figLoop_inv (figs : List Html.HN) :
    ∀ acc, (∀ f ∈ acc, f.label ≠ [] ∨ f.caption ≠ []) →
      ∀ f ∈ Html.figLoop figs acc, f.label ≠ [] ∨ f.caption ≠ [] := by
  induction figs with
  | nil =>
    intro acc hacc f hf
    exact hacc f hf
  | cons fig rest ih =>
    intro acc hacc f hf
    simp only [Html.figLoop] at hf
    split at hf
    · rename_i hguard
      refine ih _ ?_ f hf
      intro g hg
      rcases List.mem_append.mp hg with hmem | hmem
      · exact hacc g hmem
      · simp only [List.mem_singleton] at hmem
        subst hmem
        simpa using hguard
    · exact ih _ hacc f hf

/-- The XML figure loop records one figure per element. -/
theorem figsLoop_length (figs : List XE) :
    ∀ acc, (Xml.figsLoop figs acc).length = acc.length + figs.length := by
  induction figs with
  | nil => intro acc; simp [Xml.figsLoop]
  | cons fig rest ih =>
    intro acc
    simp only [Xml.figsLoop]
    rw [ih]
    simp [List.length_append]
    omega

theorem prism_mo_ascii (op : List Char) (h : op ∈ Prism.asciiOps) :
    Prism.moOut op = op := by
  unfold Prism.moOut
  rw [if_pos h]

theorem prism_mo_verbatim (op : List Char) (h1 : op ∉ Prism.asciiOps)
    (h2 : op ∉ ["−".data, "×".data, "÷".data]) (h3 : op ∉ Equiv.divergingMo) :
    Prism.moOut op = op := by
  have hne := by simpa using h2
  have hfind : Prism.extTable.find? (fun p => p.1 = op) = none := by
    refine List.find?_eq_none.mpr (fun pair hp => ?_)
    simp only [decide_eq_true_eq]
    intro he
    exact h3 (he ▸ List.mem_map_of_mem Prod.fst hp)
  unfold Prism.moOut
  rw [if_neg h1, if_neg hne.1, if_neg hne.2.1, if_neg hne.2.2, hfind]
  rfl

theorem conv_mo_verbatim (op : List Char) (h1 : op ∉ Conv.asciiOps)
    (h2 : op ∉ ["−".data, "×".data, "÷".data]) :
    Conv.moOut op = op := by
  have hne := by simpa using h2
  unfold Conv.moOut
  rw [if_neg h1, if_neg hne.1, if_neg hne.2.1, if_neg hne.2.2]

theorem moOut_agree (op : List Char) (h : op ∉ Equiv.divergingMo) :
    Conv.moOut op = Prism.moOut op := by
  by_cases hm : op = "−".data
  · subst hm; decide
  by_cases hx : op = "×".data
  · subst hx; decide
  by_cases hd : op = "÷".data
  · subst hd; decide
  by_cases hca : op ∈ Conv.asciiOps
  · have hsub : ∀ x ∈ Conv.asciiOps, x ∈ Prism.asciiOps := by decide
    rw [prism_mo_ascii op (hsub op hca)]
    unfold Conv.moOut
    rw [if_pos hca]
  · by_cases hpa : op ∈ Prism.asciiOps
    · rw [prism_mo_ascii op hpa, conv_mo_verbatim op hca (by simp [hm, hx, hd])]
    · rw [conv_mo_verbatim op hca (by simp [hm, hx, hd]),
        prism_mo_verbatim op hpa (by simp [hm, hx, hd]) h]

theorem convF_unknown_tag (fuel : Nat) (tag : String)
    (attrs : List (String × List Char)) (text tail : List Char) (kids : XEList)
    (h : stripTag tag ∉ Conv.knownTags) :
    Conv.convF (fuel + 1) (XE.mk tag attrs text tail kids) =
      (kids.toList.map (Conv.convF fuel)).flatten := by
  simp only [Conv.knownTags, List.mem_cons, List.mem_singleton, not_or] at h
  obtain ⟨h1, h2, h3, h4, h5, h6, h7, h8, h9, h10, h11, h12, h13, h14, h15, h16,
    h17, h18, -⟩ := h
  simp only [Conv.convF, XE.tagOf, XE.kidsOf]
  rw [if_neg h1, if_neg h2, if_neg h3, if_neg h4, if_neg h5, if_neg h6, if_neg h7,
    if_neg h8, if_neg h9, if_neg h10, if_neg h11, if_neg h12, if_neg h13,
    if_neg h14, if_neg (by simp [h15, h16]), if_neg h17, if_neg h18]

set_option maxHeartbeats 1600000 in
theorem convF_mo (fuel : Nat) (op : List Char) :
    Conv.convF (fuel + 1) (xe "mo" [] op [] []) = Conv.moOut (pyStrip op) ∧
    Prism.convF (fuel + 1) (xe "mo" [] op [] []) = Prism.moOut (pyStrip op) := by
  have htext : textOf (XE.mk "mo" [] op [] (XEList.ofList [])) = op := by
    simp [textOf, itertextF, XE.size, XEList.size, XEList.ofList, XE.kidsOf,
      XEList.toList, XE.textRaw]
  constructor
  · simp [Conv.convF, xe, XE.tagOf, stripTag, htext]
  · simp [Prism.convF, xe, XE.tagOf, stripTag, htext]

set_option maxHeartbeats 1600000 in
theorem convF_agree : ∀ fuel e, Equiv.agreeF fuel e = true →
    Conv.convF fuel e = Prism.convF fuel e := by
  intro fuel
  induction fuel with
  | zero =>
    intro e _
    rfl
  | succ n ih =>
    intro e h
    simp only [Equiv.agreeF, Bool.and_eq_true] at h
    obtain ⟨⟨htag, hmo⟩, hkids⟩ := h
    simp only [Bool.not_eq_true', Bool.or_eq_false_iff, decide_eq_false_iff_not,
      not_or] at htag
    obtain ⟨⟨hmtext, hmspace⟩, hmtable⟩ := htag
    have hk : ∀ k ∈ e.kidsOf, Conv.convF n k = Prism.convF n k := fun k hkm =>
      ih k (List.all_eq_true.mp hkids k hkm)
    have hmap : List.map (Conv.convF n) e.kidsOf = List.map (Prism.convF n) e.kidsOf :=
      List.map_congr_left hk
    have hget : ∀ (i : Nat) (d : List Char),
        (e.kidsOf.get? i).elim d (Conv.convF n) =
          (e.kidsOf.get? i).elim d (Prism.convF n) := by
      intro i d
      cases hgi : e.kidsOf.get? i with
      | none => rfl
      | some k => simpa using hk k (List.get?_mem hgi)
    simp only [Conv.convF, Prism.convF]
    rw [if_neg hmtable, if_neg hmtable, if_neg hmtext, if_neg hmspace]
    rw [hmap]
    rw [hget 0 [], hget 1 [], hget 2 [], hget 1 "2".data]
    by_cases hmath : stripTag e.tagOf = "math"
    · rw [if_pos hmath, if_pos hmath]
    rw [if_neg hmath, if_neg hmath]
    by_cases hmrow : stripTag e.tagOf = "mrow"
    · rw [if_pos hmrow, if_pos hmrow]
    rw [if_neg hmrow, if_neg hmrow]
    by_cases hmi : stripTag e.tagOf = "mi"
    · rw [if_pos hmi, if_pos hmi]
    rw [if_neg hmi, if_neg hmi]
    by_cases hmn : stripTag e.tagOf = "mn"
    · rw [if_pos hmn, if_pos hmn]
    rw [if_neg hmn, if_neg hmn]
    by_cases hmo2 : stripTag e.tagOf = "mo"
    · rw [if_pos hmo2, if_pos hmo2]
      refine moOut_agree _ ?_
      intro hmem
      rw [Bool.or_eq_true] at hmo
      rcases hmo with hmo | hmo
      · simp [hmo2] at hmo
      · simp [hmem] at hmo
    rw [if_neg hmo2, if_neg hmo2]

end ArxivPrism

namespace ArxivPrism

/-! ### Claim theorems -/

/-- C1: the citation-stripping normaliser is claimed idempotent; it is
not.  On `"[1[2]]"` one pass yields `"[1]"` (only the inner bracket
group matches the citation pattern), and a second pass deletes the
remainder, so `normalize (normalize x) ≠ normalize x`. -/
theorem strip_citations_not_idempotent :
    TextUtils.strip_citations "[1[2]]".data = "[1]".data ∧
    TextUtils.strip_citations (TextUtils.strip_citations "[1[2]]".data) = [] ∧
    TextUtils.strip_citations (TextUtils.strip_citations "[1[2]]".data) ≠
      TextUtils.strip_citations "[1[2]]".data := by
  decide

/-- C3: the XML parser violates the depth-3 invariant: on a body with
`sec > sec[disp-level=3] > sec[disp-level=3]` it produces a level-3
Section whose child list is non-empty, while every constructed level
still passes the pydantic 1..3 bound (so the Article is really
produced). -/
theorem xml_sections_break_depth_invariant :
    Models.sectionsDepthOK (Xml.get_sections Docs.deepSecBody) = false ∧
    Models.sectionsLevelsOK (Xml.get_sections Docs.deepSecBody) = true := by
  decide

/-- C4 counterexample: the HTML parser returns a non-empty
supplementary sequence for a document with a Supplementary
information section containing a qualifying link. -/
theorem html_supplementary_nonempty :
    Html.get_supplementary Docs.suppDoc =
      [⟨"Data S1".data, "https://s.com/supplementary1.pdf".data⟩] ∧
    Html.get_supplementary Docs.suppDoc ≠ [] := by
  decide

/-- C4 amended: the XML parser always returns an empty supplementary
sequence (both at the method and at the parse-assembly level); the
HTML parser returns an empty sequence whenever the document has no
`Supplementary information` section. -/
theorem supplementary_empty_cases :
    (∀ article : XE, Xml.parse_supplementary article = []) ∧
    (∀ back : XE, Xml.get_supplementary back = []) ∧
    (∀ root : Html.HN, (∀ n ∈ Html.descOf root, Html.isSuppSection n = false) →
      Html.get_supplementary root = []) := by
  refine ⟨?_, fun _ => rfl, ?_⟩
  · intro article
    unfold Xml.parse_supplementary
    cases childTag? "back" article <;> rfl
  · intro root h
    unfold Html.get_supplementary
    have hnone : (Html.descOf root).find? Html.isSuppSection = none :=
      List.find?_eq_none.mpr (fun x hx => by simp [h x hx])
    rw [hnone]

/-- C4 witness: the theorem applied at concrete inputs. -/
theorem supplementary_empty_cases_witness :
    Xml.parse_supplementary Docs.bareFigArticle = [] ∧
    Html.get_supplementary Docs.plainDoc = [] :=
  ⟨supplementary_empty_cases.1 Docs.bareFigArticle,
   supplementary_empty_cases.2.2 Docs.plainDoc (by decide)⟩

/-- C5 counterexample: there is no Acknowledgements end-marker.  On a
document with sections Results, Acknowledgements, Methods (in that
order) the HTML parser returns all three sections: the
Acknowledgements section and content beyond it do contribute. -/
theorem html_sections_keep_acknowledgements :
    (Html.get_sections Docs.ackDoc).map Models.Section.titleOf =
      ["Results".data, "Acknowledgements".data, "Methods".data] := by
  decide

/-- C5 amended: the section walk skips exactly the sections whose
stripped data-title lies in the fixed skip-set (References and its
trailing-space variant) and processes every other data-title section
in document order — the skip-set contains no Acknowledgements marker
and nothing stops the iteration. -/
theorem html_sections_skip_only :
    (∀ root : Html.HN,
      Html.get_sections root =
        (((Html.descPathF root.size [] root).filter
            (fun p => Html.isDataTitleSection p.2)).filter
          (fun p => !Html.skippedSection p.2)).map
          (fun p => Html.buildSection p.1 p.2)) ∧
    "Acknowledgements".data ∉ Html.SKIP_SECTION_TITLES ∧
    "Acknowledgments".data ∉ Html.SKIP_SECTION_TITLES ∧
    Html.SKIP_SECTION_TITLES = ["References".data, "References ".data] :=
  ⟨fun _ => secLoop_filter _, by decide, by decide, rfl⟩

/-- C6 counterexample: the XML parser records a figure element that
has neither label nor caption (as F1 with empty label and caption). -/
theorem xml_bare_figure_recorded :
    Xml.get_figures Docs.bareFigArticle = [⟨"F1".data, [], []⟩] ∧
    Xml.get_figures Docs.bareFigArticle ≠ [] := by
  decide

/-- C6 amended: in the HTML parser a figure with neither label nor
caption is never recorded (so synthesised ids only go to recorded
figures), while the XML parser records every `fig` element of the
article, whatever its label or caption. -/
theorem figures_recording_policy :
    (∀ root : Html.HN, ∀ f ∈ Html.get_figures root,
      f.label ≠ [] ∨ f.caption ≠ []) ∧
    (∀ article : XE,
      (Xml.get_figures article).length =
        (iterTagF article.size "fig" article).length) := by
  constructor
  · intro root f hf
    exact figLoop_inv _ [] (by simp) f hf
  · intro article
    unfold Xml.get_figures
    rw [figsLoop_length]
    simp

/-- C6 witness: the theorem applied at concrete inputs. -/
theorem figures_recording_policy_witness :
    (([] : List Char) ≠ [] ∨ ("Cap one".data : List Char) ≠ []) ∧
    (Xml.get_figures Docs.bareFigArticle).length =
      (iterTagF Docs.bareFigArticle.size "fig" Docs.bareFigArticle).length :=
  ⟨figures_recording_policy.1 Docs.capFigDoc
      ⟨"F1".data, [], "Cap one".data⟩ (by decide),
   figures_recording_policy.2 Docs.bareFigArticle⟩

/-- C9 counterexample: for an anchor href with empty link text the
function returns the href, not the (empty) visible text; and the
visible text is stripped, not returned unchanged. -/
theorem link_to_markdown_not_visible_text :
    TextUtils.link_to_markdown "#sec1".data [] = "#sec1".data ∧
    TextUtils.link_to_markdown "#sec1".data [] ≠ [] ∧
    TextUtils.link_to_markdown "#a".data " x ".data = "x".data := by
  decide

/-- C9 amended: both arguments are stripped first; if the stripped
href is empty or starts with `#` the result is the stripped text,
falling back to the stripped href when the text is empty; otherwise
`[text](href)` over the stripped values, with the href as display
text when the text is empty. -/
theorem link_to_markdown_cases :
    (∀ href text, pyStrip href = [] ∨ (pyStrip href).head? = some '#' →
      TextUtils.link_to_markdown href text =
        (if text = [] then pyStrip href else pyStrip text)) ∧
    (∀ href text, ¬ (pyStrip href = [] ∨ (pyStrip href).head? = some '#') →
      TextUtils.link_to_markdown href text =
        '[' :: (if text = [] then pyStrip href else pyStrip text) ++
          "](".data ++ pyStrip href ++ ")".data) := by
  constructor
  · intro href text h
    have hcond : (decide (pyStrip href = []) ||
        decide ((pyStrip href).head? = some '#')) = true := by
      simpa using h
    simp only [TextUtils.link_to_markdown, pyOr_nil]
    rw [show pyOr text (pyStrip href) =
      if text = [] then pyStrip href else text from rfl]
    by_cases ht : text = []
    · rw [if_pos ht, if_pos ht, if_pos hcond, pyStrip_idem]
    · rw [if_neg ht, if_neg ht, if_pos hcond]
  · intro href text h
    have hcond : (decide (pyStrip href = []) ||
        decide ((pyStrip href).head? = some '#')) = false := by
      simpa using not_or.mp h
    simp only [TextUtils.link_to_markdown, pyOr_nil]
    rw [show pyOr text (pyStrip href) =
      if text = [] then pyStrip href else text from rfl]
    by_cases ht : text = []
    · rw [if_pos ht, if_pos ht, if_neg (by simp [hcond]), pyStrip_idem]
      simp
    · rw [if_neg ht, if_neg ht, if_neg (by simp [hcond])]
      simp

/-- C9 witness: the theorem applied at concrete inputs. -/
theorem link_to_markdown_cases_witness :
    TextUtils.link_to_markdown "#z".data "hi".data = "hi".data ∧
    TextUtils.link_to_markdown "http://a".data [] =
      "[http://a](http://a)".data := by
  constructor
  · rw [link_to_markdown_cases.1 "#z".data "hi".data (Or.inr (by decide))]
    decide
  · rw [link_to_markdown_cases.2 "http://a".data [] (by decide)]
    decide

/-- C2: the string-level converter is fail-soft: when the XML parse
oracle fails (any exception of `ET.fromstring`, e.g. an unterminated
tag) the result is the empty string; when it succeeds the result is
either empty (blank input) or the trimmed conversion of the parsed
root — no other outcome exists, so no exception escapes. -/
theorem mathml_to_latex_fail_soft :
    ∀ (fromstring : List Char → Option XE) (s : List Char),
      (fromstring s = none → Conv.mathml_to_latex fromstring s = []) ∧
      (∀ root, fromstring s = some root →
        Conv.mathml_to_latex fromstring s = [] ∨
        Conv.mathml_to_latex fromstring s =
          pyStrip (Conv.convF root.size root)) := by
  intro fs s
  constructor
  · intro h
    unfold Conv.mathml_to_latex
    rw [h]
    split <;> rfl
  · intro root h
    unfold Conv.mathml_to_latex
    rw [h]
    split
    · exact Or.inl rfl
    · exact Or.inr rfl

/-- C2 witness: a failing parse oracle on a malformed string yields
the empty result. -/
theorem mathml_to_latex_fail_soft_witness :
    Conv.mathml_to_latex (fun _ => none) "<math><mi>x".data = [] :=
  (mathml_to_latex_fail_soft (fun _ => none) "<math><mi>x".data).1 rfl

/-- C7 counterexample: the converter copy (the file the claim also
cites) does not map ≤ through the symbol table — the operator passes
through verbatim instead of producing its LaTeX macro. -/
theorem conv_mo_unicode_not_mapped :
    Conv.mathml_element_to_latex (xe "mo" [] "≤".data [] []) = "≤".data ∧
    Conv.mathml_element_to_latex (xe "mo" [] "≤".data [] []) ≠ "\\leq".data ∧
    Conv.mathml_element_to_latex (xe "mo" [] "≤".data [] []) ≠ "\\leq ".data := by
  decide

/-- C7 amended: the arxiv_prism copy maps the claimed Unicode
operators to their (space-terminated) LaTeX macros, passes its ASCII
operators through, and passes every unrecognised symbol through
verbatim; the converter copy maps only ×, ÷ and − and passes
everything else (including the other listed Unicode operators)
through verbatim.  The last conjunct ties the `mo`-element conversion
of both copies to their symbol-table functions. -/
theorem mo_symbol_tables :
    (Prism.moOut "×".data = "\\times ".data ∧
     Prism.moOut "÷".data = "\\div ".data ∧
     Prism.moOut "≤".data = "\\leq ".data ∧
     Prism.moOut "≥".data = "\\geq ".data ∧
     Prism.moOut "≠".data = "\\neq ".data ∧
     Prism.moOut "±".data = "\\pm ".data ∧
     Prism.moOut "∈".data = "\\in ".data ∧
     Prism.moOut "⊂".data = "\\subset ".data ∧
     Prism.moOut "∪".data = "\\cup ".data ∧
     Prism.moOut "∩".data = "\\cap ".data ∧
     Prism.moOut "∞".data = "\\infty ".data ∧
     Prism.moOut "∑".data = "\\sum ".data ∧
     Prism.moOut "∏".data = "\\prod ".data ∧
     Prism.moOut "∫".data = "\\int ".data) ∧
    (∀ op ∈ Prism.asciiOps, Prism.moOut op = op) ∧
    (∀ op, op ∉ Prism.asciiOps → op ∉ ["−".data, "×".data, "÷".data] →
      op ∉ Equiv.divergingMo → Prism.moOut op = op) ∧
    (Conv.moOut "−".data = "-".data ∧
     Conv.moOut "×".data = "\\times ".data ∧
     Conv.moOut "÷".data = "\\div ".data ∧
     Conv.moOut "≤".data = "≤".data) ∧
    (∀ op, op ∉ Conv.asciiOps → op ∉ ["−".data, "×".data, "÷".data] →
      Conv.moOut op = op) ∧
    (∀ fuel op,
      Conv.convF (fuel + 1) (xe "mo" [] op [] []) = Conv.moOut (pyStrip op) ∧
      Prism.convF (fuel + 1) (xe "mo" [] op [] []) = Prism.moOut (pyStrip op)) :=
  ⟨by decide, prism_mo_ascii, prism_mo_verbatim, by decide, conv_mo_verbatim,
   convF_mo⟩

/-- C7 witness: the quantified conjuncts applied at concrete operators. -/
theorem mo_symbol_tables_witness :
    Prism.moOut "+".data = "+".data ∧
    Prism.moOut "⊕".data = "⊕".data ∧
    Conv.moOut "⊕".data = "⊕".data ∧
    Conv.convF 1 (xe "mo" [] "≤".data [] []) = Conv.moOut (pyStrip "≤".data) :=
  ⟨mo_symbol_tables.2.1 "+".data (by decide),
   mo_symbol_tables.2.2.1 "⊕".data (by decide) (by decide) (by decide),
   mo_symbol_tables.2.2.2.2.1 "⊕".data (by decide) (by decide),
   (mo_symbol_tables.2.2.2.2.2 0 "≤".data).1⟩

/-- C8: the converter maps the known constructs exactly
(`msup(mi x, mn 2)` to `{x}^{2}` and `mfrac(mn 1, mn 2)` to
`\frac{1}{2}`), and an element with an unrecognised tag converts to
the concatenation of the conversions of its children. -/
theorem math_known_constructs :
    Conv.mathml_element_to_latex
        (xe "msup" [] [] [] [xe "mi" [] "x".data [] [], xe "mn" [] "2".data [] []]) =
      "\x7bx\x7d^\x7b2\x7d".data ∧
    Conv.mathml_element_to_latex
        (xe "mfrac" [] [] [] [xe "mn" [] "1".data [] [], xe "mn" [] "2".data [] []]) =
      "\\frac\x7b1\x7d\x7b2\x7d".data ∧
    (∀ fuel tag attrs text tail kids, stripTag tag ∉ Conv.knownTags →
      Conv.convF (fuel + 1) (XE.mk tag attrs text tail kids) =
        (kids.toList.map (Conv.convF fuel)).flatten) :=
  ⟨by decide, by decide, convF_unknown_tag⟩

/-- C8 witness: the transparency conjunct applied at a concrete
unknown wrapper element. -/
theorem math_known_constructs_witness :
    Conv.convF 2 (XE.mk "mstyle" [] [] []
        (XEList.ofList [xe "mi" [] "x".data [] [], xe "mn" [] "2".data [] []])) =
      ((XEList.ofList [xe "mi" [] "x".data [] [],
          xe "mn" [] "2".data [] []]).toList.map (Conv.convF 1)).flatten :=
  math_known_constructs.2.2 1 "mstyle" [] [] [] _ (by decide)

/-- C10 counterexample: the two converter copies disagree on the
`mo` operator ≥ — the converter copy passes it through verbatim
while the arxiv_prism copy produces the LaTeX macro. -/
theorem converters_differ_on_mo :
    Conv.mathml_element_to_latex (xe "mo" [] "≥".data [] []) = "≥".data ∧
    Prism.mathml_element_to_latex (xe "mo" [] "≥".data [] []) = "\\geq".data ∧
    Conv.mathml_element_to_latex (xe "mo" [] "≥".data [] []) ≠
      Prism.mathml_element_to_latex (xe "mo" [] "≥".data [] []) := by
  decide

/-- C10 amended: the two copies agree on the common fragment — every
tree with no mtext, mspace or mtable element and no extended-table
`mo` operator — at the recursive level, at the element level, and at
the string level for any parse oracle whose result lies in the
fragment. -/
theorem converters_agree_on_common_fragment :
    (∀ fuel e, Equiv.agreeF fuel e = true →
      Conv.convF fuel e = Prism.convF fuel e) ∧
    (∀ e, Equiv.agreeF e.size e = true →
      Conv.mathml_element_to_latex e = Prism.mathml_element_to_latex e) ∧
    (∀ fromstring s,
      (∀ root, fromstring s = some root → Equiv.agreeF root.size root = true) →
      Conv.mathml_to_latex fromstring s = Prism.mathml_to_latex fromstring s) := by
  refine ⟨convF_agree, ?_, ?_⟩
  · intro e h
    unfold Conv.mathml_element_to_latex Prism.mathml_element_to_latex
    rw [convF_agree _ _ h]
  · intro fs s h
    unfold Conv.mathml_to_latex Prism.mathml_to_latex
    split
    · rfl
    · cases hfs : fs s with
      | none => rfl
      | some root =>
        show pyStrip (Conv.convF root.size root) =
          pyStrip (Prism.convF root.size root)
        rw [convF_agree _ _ (h root hfs)]

/-- C10 witness: the element-level agreement applied at a concrete
common-fragment tree. -/
theorem converters_agree_witness :
    Conv.mathml_element_to_latex
        (xe "msup" [] [] [] [xe "mi" [] "x".data [] [], xe "mn" [] "2".data [] []]) =
      Prism.mathml_element_to_latex
        (xe "msup" [] [] [] [xe "mi" [] "x".data [] [], xe "mn" [] "2".data [] []]) :=
  converters_agree_on_common_fragment.2.1 _ (by decide)

end ArxivPrism

